import Mathlib

set_option maxHeartbeats 1000000

/-
Verification of the bad-block management subsystem of the zircon nandpart
driver (src/system/dev/nand/nandpart/aml-bad-block.cpp and nandpart.cpp),
as a shallow embedding.  Machine integers are Nat with explicit masks at
the widths where the C++ overflows (uint16_t generation and PE counters,
uint32_t block arithmetic).  The asynchronous NAND controller is modelled
as a deterministic oracle (structure Flash): the driver blocks on each
operation, so one call is one oracle lookup.
-/

namespace Zircon

/-- zx_status_t values that appear in aml-bad-block.cpp and nandpart.cpp.
errIO stands for any controller-reported failure of a single NAND
read/write/erase operation. -/
inductive ZxStatus where
  | ok
  | errNotFound
  | errNotSupported
  | errInternal
  | errOutOfRange
  | errInvalidArgs
  | errNoMemory
  | errIO
  deriving DecidableEq, Repr, Inhabited

/-- Modelled from the spec: the per-block status byte stored in the
in-memory bad block table (the values kNandBlockGood/kNandBlockBad live in
aml-bad-block.h, which is not part of the sources; spec section 3: values
are drawn from the set containing GOOD and BAD, and only equality with
GOOD is load-bearing). -/
inductive BlockStatus where
  | good
  | bad
  deriving DecidableEq, Repr

instance : Inhabited BlockStatus := ⟨BlockStatus.good⟩

/-- The OOB header written with every BBT page: magic u32,
program_erase_cycles u16, generation u16 (spec section 3; used via oob_
in aml-bad-block.cpp). -/
structure OobMetadata where
  magic : Nat
  program_erase_cycles : Nat
  generation : Nat
  deriving DecidableEq, Repr

instance : Inhabited OobMetadata := ⟨⟨0, 0, 0⟩⟩

/-- kBadBlockTableMagic = 0x7462626E ("nbbt"), aml-bad-block.cpp line 23. -/
def kBadBlockTableMagic : Nat := 0x7462626E

/-- Modelled from the spec: sizeof(OobMetadata) = 4 + 2 + 2 bytes, used by
the OOB-size check at the top of FindBadBlockTable. -/
def kOobSize : Nat := 8

/-- Modelled from the spec: MAX_RESERVED = 8, the capacity of the
block_list_ array (kBlockListMax in aml-bad-block.h, which is not in the
sources; the comment at the range check in FindBadBlockTable confirms the
value: no more than 8 blocks are dedicated for BBT use). -/
def kBlockListMax : Nat := 8

/-- UINT16_MAX, the sentinel initial value of least_pe_cycles in
GetNewBlock. -/
def kUint16Max : Nat := 65535

/-- One entry of block_list_: a reserved block eligible to host the BBT
(fields written by FindBadBlockTable and GetNewBlock). -/
structure BlockEntry where
  block : Nat
  program_erase_cycles : Nat
  valid : Bool
  deriving DecidableEq, Repr

instance : Inhabited BlockEntry := ⟨⟨0, 0, false⟩⟩

/-- The nand_info_t fields the driver uses.  table_len_ equals num_blocks
(AmlBadBlock::Create). -/
structure NandInfo where
  page_size : Nat
  pages_per_block : Nat
  oob_size : Nat
  num_blocks : Nat
  deriving DecidableEq, Repr

/-- config_.aml: the inclusive reserved range for BBT storage. -/
structure AmlConfig where
  table_start_block : Nat
  table_end_block : Nat
  deriving DecidableEq, Repr

/-- A complete BBT record committed to flash (one stride of pages all
written successfully, sharing one OOB header).  This is the observation
artifact standing for the flash mutation performed by WritePage; pages of
a record that failed mid-stride never form a record. -/
structure PersistedRecord where
  block : Nat
  page : Nat
  oob : OobMetadata
  deriving DecidableEq, Repr

/-- The deterministic NAND controller oracle.  read gives the OOB header
of a page when reading it succeeds (none = read failure); imageAt gives
the table image stored in the record window that starts at the given nand
page (the data bytes the re-read loop of FindBadBlockTable assembles in
the data buffer); eraseOk and writeOk give per-block erase and per-page
write outcomes. -/
structure Flash where
  read : Nat → Option OobMetadata
  imageAt : Nat → List BlockStatus
  eraseOk : Nat → Bool
  writeOk : Nat → Bool

/-- The mutable state of an AmlBadBlock instance: the in-memory table
(table_), the reserved-block vector (block_list_), the current host as an
index into it (block_entry_ is a pointer in the C++; none models NULL),
the next free page offset (page_), the generation counter (generation_),
and the discovery flag (found_).  log is the list of complete records
committed to flash so far, newest last. -/
structure AmlState where
  table : List BlockStatus
  block_list : List BlockEntry
  block_entry : Option Nat
  page : Nat
  generation : Nat
  found : Bool
  log : List PersistedRecord

/-- table_[i].  In-bounds reads agree with the C++; the C++ has no defined
value out of bounds (see the claim about the bounds guard), the model
defaults to good there. -/
def tableGet (t : List BlockStatus) (i : Nat) : BlockStatus :=
  t.getD i BlockStatus.good

/-- table_[block] = kNandBlockBad.  List.set drops out-of-bounds writes;
the C++ write would be out of bounds memory access there. -/
def markTableBad (block : Nat) (t : List BlockStatus) : List BlockStatus :=
  t.set block BlockStatus.bad

/-- Number of pages a BBT record occupies:
(table_len_ + page_size - 1) / page_size (the page stride). -/
def bbtPageCount (cfg : NandInfo) : Nat :=
  (cfg.num_blocks + cfg.page_size - 1) / cfg.page_size

/-- The scan loop of GetNewBlock (aml-bad-block.cpp lines 118-128): walk
the indices, keeping the least program_erase_cycles seen so far among
entries that are valid and are not the current entry (the C++ compares
pointers; the model compares indices).  least starts at UINT16_MAX and
index at kBlockListMax. -/
def scanIdx (bl : List BlockEntry) (cur : Option Nat) :
    List Nat → Nat × Nat → Nat × Nat
  | [], acc => acc
  | i :: rest, (least, idx) =>
    let e := bl.getD i default
    if e.valid = true ∧ cur ≠ some i ∧ e.program_erase_cycles < least then
      scanIdx bl cur rest (e.program_erase_cycles, i)
    else
      scanIdx bl cur rest (least, idx)

/-- The full selection scan over block_list_[0..kBlockListMax). -/
def selectLeast (bl : List BlockEntry) (cur : Option Nat) : Nat × Nat :=
  scanIdx bl cur (List.range kBlockListMax) (kUint16Max, kBlockListMax)

/-- block_list_[i].valid = false. -/
def invalidateEntry (i : Nat) (bl : List BlockEntry) : List BlockEntry :=
  bl.set i { bl.getD i default with valid := false }

/-- AmlBadBlock::GetNewBlock (aml-bad-block.cpp lines 116-158).  The C++
for(;;) loop is modelled with fuel; each non-returning iteration
invalidates one valid entry, so kBlockListMax + 1 units of fuel always
suffice. -/
def getNewBlock (flash : Flash) (s : AmlState) : Nat → ZxStatus × AmlState
  | 0 => (ZxStatus.errInternal, s)
  | fuel + 1 =>
    let index := (selectLeast s.block_list s.block_entry).2
    if index = kBlockListMax then
      (ZxStatus.errNotFound, s)
    else
      let entry := s.block_list.getD index default
      if tableGet s.table entry.block ≠ BlockStatus.good then
        getNewBlock flash { s with block_list := invalidateEntry index s.block_list } fuel
      else if flash.eraseOk entry.block = false then
        getNewBlock flash
          { s with table := markTableBad entry.block s.table,
                   block_list := invalidateEntry index s.block_list } fuel
      else
        (ZxStatus.ok,
         { s with block_entry := some index,
                  block_list := s.block_list.set index
                    { entry with program_erase_cycles :=
                        (entry.program_erase_cycles + 1) % 65536 },
                  page := 0 })

/-- The condition of the first branch of WriteBadBlockTable's loop: a new
host block is needed (aml-bad-block.cpp lines 199-201).  block_entry_ is
dereferenced there; none models the pre-discovery NULL, for which the
branch is forced (discovery only calls the writer with use_new_block set,
after installing a host). -/
def needsNewBlock (cfg : NandInfo) (useNew : Bool) (s : AmlState) : Bool :=
  useNew ||
    match s.block_entry with
    | none => true
    | some i =>
      decide (tableGet s.table ((s.block_list.getD i default).block) ≠ BlockStatus.good) ||
      decide (s.page + bbtPageCount cfg > cfg.pages_per_block)

/-- Index of the first page of the stride whose write fails, if any
(the inner for loop of WriteBadBlockTable, lines 219-232). -/
def firstFailedPage (flash : Flash) (base count : Nat) : Option Nat :=
  (List.range count).find? (fun j => ! flash.writeOk (base + j))

/-- AmlBadBlock::WriteBadBlockTable (aml-bad-block.cpp lines 193-238).
The do/while(!successful) loop is modelled with fuel.  On a successful
stride the record is appended to the log, page_ advances by the stride and
generation_ is incremented as a uint16_t. -/
def writeBBT (cfg : NandInfo) (flash : Flash) : Bool → AmlState → Nat → ZxStatus × AmlState
  | _, s, 0 => (ZxStatus.errInternal, s)
  | useNew, s, fuel + 1 =>
    let r := if needsNewBlock cfg useNew s then getNewBlock flash s (kBlockListMax + 1)
             else (ZxStatus.ok, s)
    if r.1 ≠ ZxStatus.ok then r
    else
      match r.2.block_entry with
      | none => (ZxStatus.errInternal, r.2)
      | some i =>
        let e := r.2.block_list.getD i default
        match firstFailedPage flash (e.block * cfg.pages_per_block + r.2.page) (bbtPageCount cfg) with
        | some _ =>
          writeBBT cfg flash false { r.2 with table := markTableBad e.block r.2.table } fuel
        | none =>
          (ZxStatus.ok,
           { r.2 with
             page := r.2.page + bbtPageCount cfg,
             generation := (r.2.generation + 1) % 65536,
             log := r.2.log ++
               [⟨e.block, r.2.page,
                 ⟨kBadBlockTableMagic, e.program_erase_cycles, r.2.generation⟩⟩] })

/-- blocks = table_end_block - table_start_block as the C++ computes it:
uint32_t subtraction, wrapping when end < start (FindBadBlockTable,
line 284). -/
def reservedBlocks (acfg : AmlConfig) : Nat :=
  (acfg.table_end_block + 4294967296 - acfg.table_start_block) % 4294967296

/-- The validation at FindBadBlockTable lines 285-289: reject when
blocks == 0 or blocks > kBlockListMax. -/
def reservedRangeRejected (acfg : AmlConfig) : Bool :=
  decide (reservedBlocks acfg = 0 ∨ reservedBlocks acfg > kBlockListMax)

/-- The up-to-6 read attempts at offsets 0, stride, ..., 5*stride inside
block b (FindBadBlockTable lines 301-305): the loop stops at the first
successful read, whose OOB lands in oob_. -/
def readBlockAttempts (flash : Flash) (stride ppb b : Nat) : Option OobMetadata :=
  (List.range 6).findSome? (fun i => flash.read (b * ppb + i * stride))

/-- Accumulator of the candidate scan: the block list being filled, the
valid_blocks write cursor, the index of the freshest candidate
(block_entry_), and generation_. -/
structure CandScan where
  bl : List BlockEntry
  nvalid : Nat
  best : Option Nat
  gen : Nat

/-- One iteration of the candidate scan (FindBadBlockTable lines 299-328).
The C++ writes block_list_[valid_blocks] unconditionally; once nvalid
reaches kBlockListMax that write is past the end of the 8-entry array
(List.set drops it; the C++ corrupts memory — see the claim on the
reserved-entry array). -/
def candStep (flash : Flash) (stride ppb : Nat) (c : CandScan) (b : Nat) : CandScan :=
  match readBlockAttempts flash stride ppb b with
  | none => c
  | some oob =>
    let bl' := c.bl.set c.nvalid ⟨b, oob.program_erase_cycles, true⟩
    if oob.magic = kBadBlockTableMagic ∧ oob.generation ≥ c.gen then
      ⟨bl', c.nvalid + 1, some c.nvalid, oob.generation⟩
    else
      ⟨bl', c.nvalid + 1, c.best, c.gen⟩

/-- The candidate scan over the inclusive reserved range. -/
def candScan (flash : Flash) (stride ppb startB endB gen0 : Nat)
    (bl0 : List BlockEntry) : CandScan :=
  (List.range' startB (endB + 1 - startB)).foldl (candStep flash stride ppb)
    ⟨bl0, 0, none, gen0⟩

/-- Outcome of checking one stride window inside the host block
(the inner loop at FindBadBlockTable lines 345-351): a read failed, or a
page read fine but without the magic, or every page read fine with the
magic (complete gives the OOB of the last page, which is what oob_ holds
after the loop). -/
inductive WindowCheck where
  | readFail
  | noMagic
  | complete (oob : OobMetadata)

/-- Walk the pages of one window; prev is the OOB of the previous
successful read (oob_ keeps stale content across a failed read, but the
status check short-circuits before the magic is consulted, as in the
C++). -/
def checkPages (flash : Flash) (base : Nat) : List Nat → OobMetadata → WindowCheck
  | [], prev => WindowCheck.complete prev
  | i :: rest, _ =>
    match flash.read (base + i) with
    | none => WindowCheck.readFail
    | some oob =>
      if oob.magic ≠ kBadBlockTableMagic then WindowCheck.noMagic
      else checkPages flash base rest oob

/-- Accumulator of the in-host scan (FindBadBlockTable lines 338-371):
found_one, latest_entry_bad, page_ and generation_. -/
structure HostScan where
  found_one : Bool
  latest_bad : Bool
  page : Nat
  gen : Nat

/-- The in-host scan: windows at page offsets 0, stride, 2*stride, ...
while page + stride <= pages_per_block.  A read failure marks the latest
entry bad and continues; a clean page without magic ends the scan (the
virgin tail); a complete window becomes the latest record and generation_
becomes its generation + 1 (uint16_t cast). -/
def scanHost (flash : Flash) (hostBase stride : Nat) :
    List Nat → HostScan → HostScan
  | [], hs => hs
  | p :: rest, hs =>
    match checkPages flash (hostBase + p) (List.range stride) default with
    | WindowCheck.readFail => scanHost flash hostBase stride rest { hs with latest_bad := true }
    | WindowCheck.noMagic => hs
    | WindowCheck.complete oob =>
      scanHost flash hostBase stride rest
        ⟨true, false, p, (oob.generation + 1) % 65536⟩

/-- Outcome of the re-read of the latest complete window (FindBadBlockTable
lines 380-387): success, or an early return carrying the failed read's
status — which is ZX_OK when the failure was a missing magic, exactly as
the C++ returns status there. -/
inductive RereadResult where
  | success
  | fail (st : ZxStatus)

/-- The re-read loop over the window at page_. -/
def rereadWindow (flash : Flash) (base : Nat) : List Nat → RereadResult
  | [] => RereadResult.success
  | i :: rest =>
    match flash.read (base + i) with
    | none => RereadResult.fail ZxStatus.errIO
    | some oob =>
      if oob.magic ≠ kBadBlockTableMagic then RereadResult.fail ZxStatus.ok
      else rereadWindow flash base rest

/-- AmlBadBlock::FindBadBlockTable (aml-bad-block.cpp lines 272-404).
The data bytes the re-read assembles become the in-memory table; the
partial overwrites a failed re-read leaves in the data buffer are not
modelled (no claim observes them). -/
def findBBT (cfg : NandInfo) (acfg : AmlConfig) (flash : Flash) (s : AmlState)
    (fuel : Nat) : ZxStatus × AmlState :=
  if kOobSize > cfg.oob_size then (ZxStatus.errNotSupported, s)
  else if reservedRangeRejected acfg then (ZxStatus.errNotSupported, s)
  else
    let stride := bbtPageCount cfg
    let c := candScan flash stride cfg.pages_per_block acfg.table_start_block
               acfg.table_end_block s.generation s.block_list
    match c.best with
    | none => (ZxStatus.errInternal, { s with block_list := c.bl, block_entry := none })
    | some bi =>
      let host := (c.bl.getD bi default).block
      let s1 := { s with block_list := c.bl, block_entry := some bi, generation := c.gen }
      let hostBase := host * cfg.pages_per_block
      let hs := scanHost flash hostBase stride
                  ((List.range (cfg.pages_per_block / stride)).map (fun k => k * stride))
                  ⟨false, true, s1.page, s1.generation⟩
      let s2 := { s1 with page := hs.page, generation := hs.gen }
      if hs.found_one = false then (ZxStatus.errNotFound, s2)
      else
        match rereadWindow flash (hostBase + s2.page) (List.range stride) with
        | RereadResult.fail st => (st, s2)
        | RereadResult.success =>
          let s3 := { s2 with table := flash.imageAt (hostBase + s2.page) }
          if hs.latest_bad then
            match writeBBT cfg flash true s3 fuel with
            | (ZxStatus.ok, s4) => (ZxStatus.ok, { s4 with found := true })
            | (_, s4) => (ZxStatus.errNotSupported, s4)
          else
            (ZxStatus.ok, { s3 with page := s3.page + stride, found := true })

/-- The lazy-discovery preamble shared by the three public entry points. -/
def ensureFound (cfg : NandInfo) (acfg : AmlConfig) (flash : Flash) (s : AmlState)
    (fuel : Nat) : ZxStatus × AmlState :=
  if s.found then (ZxStatus.ok, s) else findBBT cfg acfg flash s fuel

/-- The blocks in [first, last) whose table entry differs from good, in
order (the two collection loops of GetBadBlockList, lines 420-446). -/
def badBlocksIn (t : List BlockStatus) (first last : Nat) : List Nat :=
  (List.range' first (last - first)).filter
    (fun b => decide (tableGet t b ≠ BlockStatus.good))

/-- AmlBadBlock::GetBadBlockList (aml-bad-block.cpp lines 406-449).
Allocation always succeeds in the model (the NO_MEMORY path is not
claimed). -/
def getBadBlockList (cfg : NandInfo) (acfg : AmlConfig) (flash : Flash)
    (first last : Nat) (s : AmlState) (fuel : Nat) :
    ZxStatus × AmlState × List Nat :=
  let r := ensureFound cfg acfg flash s fuel
  if r.1 ≠ ZxStatus.ok then (r.1, r.2, [])
  else if first ≥ cfg.num_blocks ∨ last > cfg.num_blocks then
    (ZxStatus.errInvalidArgs, r.2, [])
  else
    (ZxStatus.ok, r.2, badBlocksIn r.2.table first last)

/-- AmlBadBlock::IsBlockBad (aml-bad-block.cpp lines 451-467).  The guard
is block > table_len_, exactly as written. -/
def isBlockBad (cfg : NandInfo) (acfg : AmlConfig) (flash : Flash)
    (block : Nat) (s : AmlState) (fuel : Nat) : ZxStatus × AmlState × Bool :=
  let r := ensureFound cfg acfg flash s fuel
  if r.1 ≠ ZxStatus.ok then (r.1, r.2, false)
  else if block > cfg.num_blocks then (ZxStatus.errOutOfRange, r.2, false)
  else (ZxStatus.ok, r.2, decide (tableGet r.2.table block ≠ BlockStatus.good))

/-- AmlBadBlock::MarkBlockBad (aml-bad-block.cpp lines 469-489). -/
def markBlockBad (cfg : NandInfo) (acfg : AmlConfig) (flash : Flash)
    (block : Nat) (s : AmlState) (fuel : Nat) : ZxStatus × AmlState :=
  let r := ensureFound cfg acfg flash s fuel
  if r.1 ≠ ZxStatus.ok then r
  else if block > cfg.num_blocks then (ZxStatus.errOutOfRange, r.2)
  else if tableGet r.2.table block ≠ BlockStatus.good then (ZxStatus.ok, r.2)
  else writeBBT cfg flash false { r.2 with table := markTableBad block r.2.table } fuel

/-- The cache fill of NandPartDevice (nandpart.cpp lines 273-279 and the
twins in IsBlockBad/MarkBlockBad): fetch the core's list over
[erase_block_start_, erase_block_start_ + num_blocks).  An empty result
leaves bad_block_list_ a null fbl::Array (reset with no backing store), so
the cache stays unset; a non-empty result is cached.  The cached numbers
are the absolute device block numbers the core returned. -/
def coreFetchList (cfg : NandInfo) (acfg : AmlConfig) (flash : Flash)
    (startBlk numBlks : Nat) (core : AmlState) (fuel : Nat) :
    ZxStatus × AmlState × Option (List Nat) :=
  match getBadBlockList cfg acfg flash startBlk (startBlk + numBlks) core fuel with
  | (ZxStatus.ok, core1, l) => (ZxStatus.ok, core1, if l.isEmpty then none else some l)
  | (st, core1, _) => (st, core1, none)

/-- NandPartDevice::IsBlockBad (nandpart.cpp lines 298-321): range guard
against the partition's num_blocks, cache fill on first use, then a linear
scan comparing each cached entry with the partition-relative argument. -/
def muxIsBlockBad (cfg : NandInfo) (acfg : AmlConfig) (flash : Flash)
    (startBlk numBlks : Nat) (core : AmlState) (cache : Option (List Nat))
    (block : Nat) (fuel : Nat) :
    ZxStatus × Bool × AmlState × Option (List Nat) :=
  if block ≥ numBlks then (ZxStatus.errOutOfRange, false, core, cache)
  else
    match cache with
    | some l => (ZxStatus.ok, l.contains block, core, some l)
    | none =>
      match coreFetchList cfg acfg flash startBlk numBlks core fuel with
      | (ZxStatus.ok, core1, c1) =>
        (ZxStatus.ok, (c1.getD []).contains block, core1, c1)
      | (st, core1, c1) => (st, false, core1, c1)

/-- NandPartDevice::MarkBlockBad (nandpart.cpp lines 323-351): range
guard, cache fill, append the partition-relative block to the cached copy,
then write through the core at block + erase_block_start_. -/
def muxMarkBlockBad (cfg : NandInfo) (acfg : AmlConfig) (flash : Flash)
    (startBlk numBlks : Nat) (core : AmlState) (cache : Option (List Nat))
    (block : Nat) (fuel : Nat) :
    ZxStatus × AmlState × Option (List Nat) :=
  if block ≥ numBlks then (ZxStatus.errOutOfRange, core, cache)
  else
    match (match cache with
           | some l => (ZxStatus.ok, core, some l)
           | none => coreFetchList cfg acfg flash startBlk numBlks core fuel) with
    | (ZxStatus.ok, core1, c1) =>
      let newList := (c1.getD []) ++ [block]
      (let m := markBlockBad cfg acfg flash (block + startBlk) core1 fuel
       (m.1, m.2, some newList))
    | (st, core1, _) => (st, core1, cache)

/-
Concrete fixtures used by the closed theorems: a small device with 4
blocks of 4 pages, page_size 4 (so the table of 4 bytes fits one page and
the stride is 1), and oob_size 8 (the header fits). -/

/-- A 4-block, 4-pages-per-block device whose table fits in one page. -/
def nandCfg : NandInfo := ⟨4, 4, 8, 4⟩

/-- Reserved range blocks 0..2 (blocks = 2 passes the validation). -/
def acfg0 : AmlConfig := ⟨0, 2⟩

/-- An all-invalid block list of the array's capacity. -/
def blankBlockList : List BlockEntry := List.replicate 8 default

/-- Oracle: every read fails, every erase and write succeeds. -/
def flashAllOk : Flash := ⟨fun _ => none, fun _ => [], fun _ => true, fun _ => true⟩

/-- Oracle for a virgin device: every read succeeds and returns an erased
OOB (no magic); erases and writes succeed. -/
def flashVirgin : Flash := ⟨fun _ => some ⟨0, 0, 0⟩, fun _ => [], fun _ => true, fun _ => true⟩

/-- Post-discovery state: all blocks good, reserved entry 0 hosts the BBT
in block 3, generation 0, next free page 0. -/
def hostState : AmlState :=
  ⟨[BlockStatus.good, BlockStatus.good, BlockStatus.good, BlockStatus.good],
   ⟨3, 0, true⟩ :: List.replicate 7 default, some 0, 0, 0, true, []⟩

/-- Like hostState but device block 1 is already bad in the table. -/
def mixedState : AmlState :=
  { hostState with table := [BlockStatus.good, BlockStatus.bad, BlockStatus.good, BlockStatus.good] }

/-- Like hostState but the generation counter sits at UINT16_MAX. -/
def genWrapState : AmlState := { hostState with generation := 65535 }

/-- Pre-discovery state of a 4-block device. -/
def virginState : AmlState :=
  ⟨List.replicate 4 BlockStatus.good, blankBlockList, none, 0, 0, false, []⟩

/-- One valid reserved entry whose PE counter sits at UINT16_MAX. -/
def selHiList : List BlockEntry := ⟨0, 65535, true⟩ :: List.replicate 7 default

/-- One valid reserved entry with a small PE counter. -/
def selLoList : List BlockEntry := ⟨0, 3, true⟩ :: List.replicate 7 default

/-- State whose reserved list is selHiList and with no current host. -/
def wornState : AmlState := { hostState with block_list := selHiList, block_entry := none }

/-- A 3-block device for the partition-multiplexer fixtures. -/
def cfg4 : NandInfo := ⟨4, 4, 8, 3⟩

/-- Core state of the 3-block device: device block 2 is bad. -/
def core4 : AmlState :=
  ⟨[BlockStatus.good, BlockStatus.good, BlockStatus.bad], blankBlockList, some 0, 0, 0, true, []⟩

/-- Reserved range with table_start_block = table_end_block = 5: one
block, which the C++ rejects. -/
def acfgOne : AmlConfig := ⟨5, 5⟩

/-- Reserved range 0..8 inclusive: nine blocks, which the C++ accepts. -/
def acfgNine : AmlConfig := ⟨0, 8⟩

/-
Helper lemmas.
-/

theorem tableGet_set_ne {t : List BlockStatus} {i j : Nat} (h : i ≠ j) (v : BlockStatus) :
    tableGet (t.set i v) j = tableGet t j := by
  simp [tableGet, List.getD_eq_getElem?_getD, List.getElem?_set_ne h]

theorem tableGet_set_self {t : List BlockStatus} {i : Nat} (h : i < t.length) (v : BlockStatus) :
    tableGet (t.set i v) i = v := by
  simp [tableGet, List.getD_eq_getElem?_getD, List.getElem?_set_self h]

theorem tableGet_markTableBad_self {t : List BlockStatus} {b : Nat} (h : b < t.length) :
    tableGet (markTableBad b t) b = BlockStatus.bad := by
  simpa [markTableBad] using tableGet_set_self h BlockStatus.bad

theorem tableGet_markTableBad_bad {t : List BlockStatus} {b c : Nat}
    (h : tableGet t c = BlockStatus.bad) :
    tableGet (markTableBad b t) c = BlockStatus.bad := by
  by_cases hbc : b = c
  · subst hbc
    by_cases hlt : b < t.length
    · exact tableGet_markTableBad_self hlt
    · rw [markTableBad, List.set_eq_of_length_le (Nat.le_of_not_lt hlt)]
      exact h
  · rw [markTableBad, tableGet_set_ne hbc]
    exact h

/-- The state components the writer's retry loop never rolls back or
fabricates: generation and the flash log are untouched until the final
success, found_ is untouched, and a bad table entry stays bad. -/
def Preserves (s s' : AmlState) : Prop :=
  s'.generation = s.generation ∧ s'.log = s.log ∧ s'.found = s.found ∧
    ∀ b, tableGet s.table b = BlockStatus.bad → tableGet s'.table b = BlockStatus.bad

theorem preserves_refl (s : AmlState) : Preserves s s :=
  ⟨rfl, rfl, rfl, fun _ h => h⟩

theorem preserves_trans {a b c : AmlState} (h1 : Preserves a b) (h2 : Preserves b c) :
    Preserves a c :=
  ⟨h2.1.trans h1.1, h2.2.1.trans h1.2.1, h2.2.2.1.trans h1.2.2.1,
   fun x hx => h2.2.2.2 x (h1.2.2.2 x hx)⟩

theorem getNewBlock_preserves (flash : Flash) :
    ∀ (fuel : Nat) (s : AmlState), Preserves s (getNewBlock flash s fuel).2 := by
  intro fuel
  induction fuel with
  | zero => intro s; exact preserves_refl s
  | succ fuel ih =>
    intro s
    simp only [getNewBlock]
    split
    · exact preserves_refl s
    · split
      · refine preserves_trans ?_ (ih _)
        exact ⟨rfl, rfl, rfl, fun _ h => h⟩
      · split
        · refine preserves_trans ?_ (ih _)
          exact ⟨rfl, rfl, rfl, fun _ hb => tableGet_markTableBad_bad hb⟩
        · exact ⟨rfl, rfl, rfl, fun _ h => h⟩

theorem writeBBT_invariants (cfg : NandInfo) (flash : Flash) :
    ∀ (fuel : Nat) (useNew : Bool) (s : AmlState),
      ((writeBBT cfg flash useNew s fuel).1 = ZxStatus.ok →
        (writeBBT cfg flash useNew s fuel).2.generation = (s.generation + 1) % 65536 ∧
        ∃ r, (writeBBT cfg flash useNew s fuel).2.log = s.log ++ [r] ∧
             r.oob.generation = s.generation) ∧
      ((writeBBT cfg flash useNew s fuel).1 ≠ ZxStatus.ok →
        (writeBBT cfg flash useNew s fuel).2.generation = s.generation ∧
        (writeBBT cfg flash useNew s fuel).2.log = s.log) ∧
      (writeBBT cfg flash useNew s fuel).2.found = s.found ∧
      (∀ b, tableGet s.table b = BlockStatus.bad →
        tableGet (writeBBT cfg flash useNew s fuel).2.table b = BlockStatus.bad) := by
  intro fuel
  induction fuel with
  | zero =>
    intro useNew s
    refine ⟨fun h => by simp [writeBBT] at h, fun _ => ⟨rfl, rfl⟩, rfl, fun _ h => h⟩
  | succ fuel ih =>
    intro useNew s
    have hpres : Preserves s
        (if needsNewBlock cfg useNew s then getNewBlock flash s (kBlockListMax + 1)
         else (ZxStatus.ok, s)).2 := by
      split
      · exact getNewBlock_preserves flash _ s
      · exact preserves_refl s
    simp only [writeBBT]
    generalize hr : (if needsNewBlock cfg useNew s then getNewBlock flash s (kBlockListMax + 1)
         else ((ZxStatus.ok, s) : ZxStatus × AmlState)) = r at hpres ⊢
    split
    · rename_i hne
      exact ⟨fun h => absurd h hne, fun _ => ⟨hpres.1, hpres.2.1⟩, hpres.2.2.1,
             fun b hb => hpres.2.2.2 b hb⟩
    · split
      · refine ⟨?_, ?_, ?_, ?_⟩
        · exact fun h => nomatch h
        · exact fun _ => ⟨hpres.1, hpres.2.1⟩
        · exact hpres.2.2.1
        · exact fun b hb => hpres.2.2.2 b hb
      · rename_i i hbe
        split
        · refine ⟨fun h => ?_, fun h => ?_, ?_, fun b hb => ?_⟩
          · obtain ⟨hg, rr, hlog, hrg⟩ := (ih false _).1 h
            refine ⟨hg.trans (congrArg (fun g => (g + 1) % 65536) hpres.1), rr,
                    hlog.trans (congrArg (fun l => l ++ [rr]) hpres.2.1),
                    hrg.trans hpres.1⟩
          · obtain ⟨hg, hlog⟩ := (ih false _).2.1 h
            exact ⟨hg.trans hpres.1, hlog.trans hpres.2.1⟩
          · exact ((ih false _).2.2.1).trans hpres.2.2.1
          · exact (ih false _).2.2.2 b (tableGet_markTableBad_bad (hpres.2.2.2 b hb))
        · refine ⟨fun _ => ?_, fun h => absurd rfl h, hpres.2.2.1, fun b hb => hpres.2.2.2 b hb⟩
          refine ⟨congrArg (fun g => (g + 1) % 65536) hpres.1,
                  ⟨(r.2.block_list.getD i default).block, r.2.page,
                   ⟨kBadBlockTableMagic, (r.2.block_list.getD i default).program_erase_cycles,
                    r.2.generation⟩⟩,
                  congrArg (fun l => l ++ [_]) hpres.2.1, hpres.1⟩

/-- j indexes a selectable entry of the reserved list: valid, and not the
current host. -/
def isCandidate (bl : List BlockEntry) (cur : Option Nat) (j : Nat) : Prop :=
  (bl.getD j default).valid = true ∧ cur ≠ some j

instance (bl : List BlockEntry) (cur : Option Nat) (j : Nat) :
    Decidable (isCandidate bl cur j) := by
  unfold isCandidate; infer_instance

/-- PE counter of the reserved entry at index j. -/
def peOf (bl : List BlockEntry) (j : Nat) : Nat :=
  (bl.getD j default).program_erase_cycles

theorem scanIdx_spec (bl : List BlockEntry) (cur : Option Nat) :
    ∀ (is : List Nat) (least idx : Nat),
      (scanIdx bl cur is (least, idx)).1 ≤ least ∧
      (∀ j ∈ is, isCandidate bl cur j → (scanIdx bl cur is (least, idx)).1 ≤ peOf bl j) ∧
      ((scanIdx bl cur is (least, idx)).2 = idx ∧ (scanIdx bl cur is (least, idx)).1 = least ∨
        ((scanIdx bl cur is (least, idx)).2 ∈ is ∧
         isCandidate bl cur (scanIdx bl cur is (least, idx)).2 ∧
         (scanIdx bl cur is (least, idx)).1 = peOf bl (scanIdx bl cur is (least, idx)).2 ∧
         (scanIdx bl cur is (least, idx)).1 < least)) := by
  intro is
  induction is with
  | nil =>
    intro least idx
    exact ⟨Nat.le_refl _, fun j hj => absurd hj (List.not_mem_nil j), Or.inl ⟨rfl, rfl⟩⟩
  | cons i rest ih =>
    intro least idx
    by_cases hc : (bl.getD i default).valid = true ∧ cur ≠ some i ∧
        (bl.getD i default).program_erase_cycles < least
    · have heq : scanIdx bl cur (i :: rest) (least, idx) =
          scanIdx bl cur rest ((bl.getD i default).program_erase_cycles, i) := by
        simp only [scanIdx]
        rw [if_pos hc]
      rw [heq]
      obtain ⟨h1, h2, h3⟩ := ih (bl.getD i default).program_erase_cycles i
      refine ⟨Nat.le_trans h1 (Nat.le_of_lt hc.2.2), ?_, ?_⟩
      · intro j hj hcand
        rcases List.mem_cons.mp hj with hj | hj
        · subst hj; exact h1
        · exact h2 j hj hcand
      · rcases h3 with ⟨ha, hb⟩ | ⟨ha, hb, hc2, hd⟩
        · right
          refine ⟨?_, ?_, ?_, ?_⟩
          · rw [ha]; exact List.mem_cons_self i rest
          · rw [ha]; exact ⟨hc.1, hc.2.1⟩
          · rw [hb, ha]
            exact rfl
          · rw [hb]; exact hc.2.2
        · right
          exact ⟨List.mem_cons_of_mem i ha, hb, hc2, Nat.lt_trans hd hc.2.2⟩
    · have heq : scanIdx bl cur (i :: rest) (least, idx) =
          scanIdx bl cur rest (least, idx) := by
        simp only [scanIdx]
        rw [if_neg hc]
      rw [heq]
      obtain ⟨h1, h2, h3⟩ := ih least idx
      refine ⟨h1, ?_, ?_⟩
      · intro j hj hcand
        rcases List.mem_cons.mp hj with hj | hj
        · subst hj
          have hnl : ¬ (bl.getD j default).program_erase_cycles < least :=
            fun hlt => hc ⟨hcand.1, hcand.2, hlt⟩
          exact Nat.le_trans h1 (Nat.le_of_not_lt hnl)
        · exact h2 j hj hcand
      · rcases h3 with h | ⟨ha, hb, hc2, hd⟩
        · exact Or.inl h
        · exact Or.inr ⟨List.mem_cons_of_mem i ha, hb, hc2, hd⟩

theorem selectLeast_spec (bl : List BlockEntry) (cur : Option Nat) :
    ((selectLeast bl cur).2 = kBlockListMax ↔
      ∀ j, j < kBlockListMax → isCandidate bl cur j → kUint16Max ≤ peOf bl j) ∧
    ((selectLeast bl cur).2 ≠ kBlockListMax →
      (selectLeast bl cur).2 < kBlockListMax ∧
      isCandidate bl cur (selectLeast bl cur).2 ∧
      ∀ j, j < kBlockListMax → isCandidate bl cur j →
        peOf bl (selectLeast bl cur).2 ≤ peOf bl j) := by
  obtain ⟨h1, h2, h3⟩ := scanIdx_spec bl cur (List.range kBlockListMax) kUint16Max kBlockListMax
  constructor
  · constructor
    · intro heq j hj hcand
      rcases h3 with ⟨_, hb⟩ | ⟨ha, _, _, _⟩
      · have hle := h2 j (List.mem_range.mpr hj) hcand
        rw [hb] at hle
        exact hle
      · have hlt : (selectLeast bl cur).2 < kBlockListMax := List.mem_range.mp ha
        rw [heq] at hlt
        exact absurd hlt (Nat.lt_irrefl _)
    · intro hall
      by_contra hne
      rcases h3 with ⟨ha, _⟩ | ⟨ha, hb, hc2, hd⟩
      · exact hne ha
      · have h65 := hall _ (List.mem_range.mp ha) hb
        rw [← hc2] at h65
        exact absurd hd (Nat.not_lt_of_le h65)
  · intro hne
    rcases h3 with ⟨ha, _⟩ | ⟨ha, hb, hc2, _⟩
    · exact absurd ha hne
    · refine ⟨List.mem_range.mp ha, hb, ?_⟩
      intro j hj hcand
      have hle := h2 j (List.mem_range.mpr hj) hcand
      rw [hc2] at hle
      exact hle

theorem candScan_best_none (flash : Flash) (stride ppb : Nat)
    (hread : ∀ p o, flash.read p = some o → o.magic ≠ kBadBlockTableMagic) :
    ∀ (bs : List Nat) (c : CandScan), c.best = none →
      (bs.foldl (candStep flash stride ppb) c).best = none := by
  intro bs
  induction bs with
  | nil => intro c hc; simpa using hc
  | cons b rest ih =>
    intro c hc
    rw [List.foldl_cons]
    have hstep : (candStep flash stride ppb c b).best = none := by
      unfold candStep
      cases hr : readBlockAttempts flash stride ppb b with
      | none => exact hc
      | some oob =>
        obtain ⟨a, -, ha⟩ := List.exists_of_findSome?_eq_some hr
        have hmag : oob.magic ≠ kBadBlockTableMagic := hread _ _ ha
        have hcond : ¬ (oob.magic = kBadBlockTableMagic ∧ oob.generation ≥ c.gen) :=
          fun hh => hmag hh.1
        simp [hcond, hc]
    exact ih _ hstep

theorem mem_range'_iff (s n m : Nat) : m ∈ List.range' s n ↔ s ≤ m ∧ m < s + n := by
  rw [List.mem_range']
  constructor
  · rintro ⟨i, hi, rfl⟩
    omega
  · intro h
    exact ⟨m - s, by omega, by omega⟩

/-
Claim theorems.
-/

/-- Claim C2 (amended): on a virgin device, where every page in the
reserved range reads successfully and no page carries the BBT magic,
discovery fails with INTERNAL (not NOT_FOUND: no candidate block carries
the magic, so block_entry_ stays NULL and FindBadBlockTable returns
ZX_ERR_INTERNAL before the in-host scan that can produce NOT_FOUND). -/
theorem findBBT_virgin_internal (cfg : NandInfo) (acfg : AmlConfig) (flash : Flash)
    (s : AmlState) (fuel : Nat)
    (hoob : kOobSize ≤ cfg.oob_size)
    (hrange : reservedRangeRejected acfg = false)
    (hread : ∀ p o, flash.read p = some o → o.magic ≠ kBadBlockTableMagic) :
    (findBBT cfg acfg flash s fuel).1 = ZxStatus.errInternal := by
  have hbest : (candScan flash (bbtPageCount cfg) cfg.pages_per_block acfg.table_start_block
      acfg.table_end_block s.generation s.block_list).best = none := by
    unfold candScan
    exact candScan_best_none flash _ _ hread _ _ rfl
  simp only [findBBT]
  rw [if_neg (by omega), if_neg (by simp [hrange]), hbest]

/-- Witness for the amended virgin-device claim at a concrete device. -/
theorem findBBT_virgin_internal_witness :
    (findBBT nandCfg acfg0 flashVirgin virginState 3).1 = ZxStatus.errInternal :=
  findBBT_virgin_internal nandCfg acfg0 flashVirgin virginState 3 (by decide) (by decide)
    (fun p o h => by
      injection h with h2
      rw [← h2]
      decide)

/-- Counterexample to claim C2 as stated: on the concrete virgin device
(flashVirgin reads every page successfully with a zeroed OOB) discovery
returns INTERNAL, which is not NOT_FOUND. -/
theorem findBBT_virgin_cex :
    (findBBT nandCfg acfg0 flashVirgin virginState 3).1 = ZxStatus.errInternal ∧
    (findBBT nandCfg acfg0 flashVirgin virginState 3).1 ≠ ZxStatus.errNotFound := by
  decide

/-- Claim C3 (amended): the selection scan never picks an entry whose
pe_cycles is UINT16_MAX (the comparison is strict against the UINT16_MAX
sentinel), so: it reports no entry (index kBlockListMax, surfaced by
GetNewBlock as NOT_FOUND) if and only if every valid non-current entry has
pe_cycles at least UINT16_MAX; and when it does pick an entry, that entry
is valid, not the current host, and its pe_cycles is less than or equal to
that of every valid non-current entry. -/
theorem getNewBlock_selection_amended (bl : List BlockEntry) (cur : Option Nat) :
    ((selectLeast bl cur).2 = kBlockListMax ↔
      ∀ j, j < kBlockListMax → isCandidate bl cur j → kUint16Max ≤ peOf bl j) ∧
    ((selectLeast bl cur).2 ≠ kBlockListMax →
      (selectLeast bl cur).2 < kBlockListMax ∧
      isCandidate bl cur (selectLeast bl cur).2 ∧
      ∀ j, j < kBlockListMax → isCandidate bl cur j →
        peOf bl (selectLeast bl cur).2 ≤ peOf bl j) ∧
    (∀ (flash : Flash) (s : AmlState) (fuel : Nat),
      s.block_list = bl → s.block_entry = cur →
      (selectLeast bl cur).2 = kBlockListMax →
      (getNewBlock flash s (fuel + 1)).1 = ZxStatus.errNotFound) := by
  refine ⟨(selectLeast_spec bl cur).1, (selectLeast_spec bl cur).2, ?_⟩
  intro flash s fuel hbl hcur hsel
  subst hbl
  subst hcur
  simp [getNewBlock, hsel]

/-- Witness for the amended selection claim: a list whose only candidate
has pe_cycles UINT16_MAX yields no selection; a list with a fresh
candidate yields a valid non-current selection; and GetNewBlock surfaces
NOT_FOUND in the first situation. -/
theorem getNewBlock_selection_amended_witness :
    (selectLeast selHiList none).2 = kBlockListMax ∧
    isCandidate selLoList none (selectLeast selLoList none).2 ∧
    (getNewBlock flashAllOk wornState 9).1 = ZxStatus.errNotFound :=
  ⟨(getNewBlock_selection_amended selHiList none).1.mpr (by decide),
   ((getNewBlock_selection_amended selLoList none).2.1 (by decide)).2.1,
   (getNewBlock_selection_amended wornState.block_list wornState.block_entry).2.2 flashAllOk
     wornState 8 rfl rfl (by decide)⟩

/-- Counterexample to claim C3 as stated: wornState has a valid reserved
entry (index 0) that is not the current host, yet GetNewBlock fails with
NOT_FOUND, because that entry's pe_cycles equals UINT16_MAX and the strict
comparison against the UINT16_MAX sentinel never selects it. -/
theorem getNewBlock_notfound_cex :
    (getNewBlock flashAllOk wornState 9).1 = ZxStatus.errNotFound ∧
    (wornState.block_list.getD 0 default).valid = true ∧
    wornState.block_entry ≠ some 0 := by
  decide

/-- Claim C6 (amended): each successful write persists the current G in
the record's OOB and then increments G modulo 2^16 (generation_ is a
uint16_t); G is strictly increasing across successful writes except at the
wraparound from 65535 to 0. -/
theorem writeBBT_generation_amended (cfg : NandInfo) (flash : Flash) (fuel : Nat)
    (useNew : Bool) (s : AmlState)
    (h : (writeBBT cfg flash useNew s fuel).1 = ZxStatus.ok) :
    (writeBBT cfg flash useNew s fuel).2.generation = (s.generation + 1) % 65536 ∧
    (∃ r, (writeBBT cfg flash useNew s fuel).2.log = s.log ++ [r] ∧
      r.oob.generation = s.generation) ∧
    (s.generation < kUint16Max →
      s.generation < (writeBBT cfg flash useNew s fuel).2.generation) := by
  obtain ⟨hg, hex⟩ := (writeBBT_invariants cfg flash fuel useNew s).1 h
  refine ⟨hg, hex, fun hlt => ?_⟩
  have h65 : s.generation < 65535 := hlt
  rw [hg, Nat.mod_eq_of_lt (by omega)]
  omega

/-- Witness for the amended generation claim: a successful write from
generation 0 increments to 1 (strictly increasing below the wrap). -/
theorem writeBBT_generation_amended_witness :
    (writeBBT nandCfg flashAllOk false hostState 2).2.generation =
      (hostState.generation + 1) % 65536 ∧
    hostState.generation < (writeBBT nandCfg flashAllOk false hostState 2).2.generation :=
  ⟨(writeBBT_generation_amended nandCfg flashAllOk 2 false hostState (by decide)).1,
   (writeBBT_generation_amended nandCfg flashAllOk 2 false hostState (by decide)).2.2
     (by decide)⟩

/-- Counterexample to claim C6 as stated: from generation 65535 a
successful write wraps the uint16_t counter to 0, so a successful write
can decrease G. -/
theorem generation_wraparound_cex :
    (writeBBT nandCfg flashAllOk false genWrapState 2).1 = ZxStatus.ok ∧
    (writeBBT nandCfg flashAllOk false genWrapState 2).2.generation <
      genWrapState.generation := by
  decide

theorem ensureFound_found {cfg : NandInfo} {acfg : AmlConfig} {flash : Flash}
    {s : AmlState} {fuel : Nat} (hfound : s.found = true) :
    ensureFound cfg acfg flash s fuel = (ZxStatus.ok, s) := by
  simp [ensureFound, hfound]

theorem markBlockBad_unfold_good (cfg : NandInfo) (acfg : AmlConfig) (flash : Flash)
    (block : Nat) (s : AmlState) (fuel : Nat)
    (hfound : s.found = true)
    (hguard : ¬ block > cfg.num_blocks)
    (hgood : tableGet s.table block = BlockStatus.good) :
    markBlockBad cfg acfg flash block s fuel =
      writeBBT cfg flash false { s with table := markTableBad block s.table } fuel := by
  simp only [markBlockBad, ensureFound_found hfound]
  rw [if_neg (by simp), if_neg hguard, if_neg (by simp [hgood])]

theorem markBlockBad_noop (cfg : NandInfo) (acfg : AmlConfig) (flash : Flash)
    (block : Nat) (s : AmlState) (fuel : Nat)
    (hfound : s.found = true)
    (hguard : ¬ block > cfg.num_blocks)
    (hbad : tableGet s.table block ≠ BlockStatus.good) :
    markBlockBad cfg acfg flash block s fuel = (ZxStatus.ok, s) := by
  simp only [markBlockBad, ensureFound_found hfound]
  rw [if_neg (by simp), if_neg hguard, if_pos hbad]

/-- Claim C1 (amended): when mark_bad passes its range check but the
write of the new record fails, the in-memory table is NOT rolled back: it
keeps the new bad entry even though no record was persisted (the log is
unchanged, as is the generation counter).  MarkBlockBad sets
table_[block] = BAD before calling the writer and nothing restores it on
failure; the spec's own scenario of an exhausted reserved region records
exactly this behavior. -/
theorem markBlockBad_fail_keeps_bad_entry (cfg : NandInfo) (acfg : AmlConfig) (flash : Flash)
    (block : Nat) (s : AmlState) (fuel : Nat)
    (hfound : s.found = true)
    (hlen : s.table.length = cfg.num_blocks)
    (hblock : block < cfg.num_blocks)
    (hgood : tableGet s.table block = BlockStatus.good)
    (hfail : (markBlockBad cfg acfg flash block s fuel).1 ≠ ZxStatus.ok) :
    tableGet (markBlockBad cfg acfg flash block s fuel).2.table block = BlockStatus.bad ∧
    (markBlockBad cfg acfg flash block s fuel).2.log = s.log ∧
    (markBlockBad cfg acfg flash block s fuel).2.generation = s.generation := by
  have hm := markBlockBad_unfold_good cfg acfg flash block s fuel hfound (by omega) hgood
  rw [hm] at hfail ⊢
  have hbadm : tableGet (markTableBad block s.table) block = BlockStatus.bad :=
    tableGet_markTableBad_self (by omega)
  have hinv := writeBBT_invariants cfg flash fuel false
    { s with table := markTableBad block s.table }
  obtain ⟨hg, hlog⟩ := hinv.2.1 hfail
  exact ⟨hinv.2.2.2 block hbadm, hlog, hg⟩

/-- Witness for the amended rollback claim: marking the current host's own
block with no spare reserved block fails, and the table keeps the bad
entry with nothing persisted. -/
theorem markBlockBad_fail_keeps_bad_entry_witness :
    tableGet (markBlockBad nandCfg acfg0 flashAllOk 3 hostState 5).2.table 3 =
      BlockStatus.bad ∧
    (markBlockBad nandCfg acfg0 flashAllOk 3 hostState 5).2.log = hostState.log :=
  ⟨(markBlockBad_fail_keeps_bad_entry nandCfg acfg0 flashAllOk 3 hostState 5 (by decide)
      (by decide) (by decide) (by decide) (by decide)).1,
   (markBlockBad_fail_keeps_bad_entry nandCfg acfg0 flashAllOk 3 hostState 5 (by decide)
      (by decide) (by decide) (by decide) (by decide)).2.1⟩

/-- Counterexample to claim C1 as stated: marking block 3 (the host) of
hostState fails with NOT_FOUND and persists nothing, yet the table does
not revert — block 3 stays bad although it was good before the call. -/
theorem markBlockBad_no_rollback_cex :
    (markBlockBad nandCfg acfg0 flashAllOk 3 hostState 5).1 = ZxStatus.errNotFound ∧
    (markBlockBad nandCfg acfg0 flashAllOk 3 hostState 5).2.log = hostState.log ∧
    tableGet (markBlockBad nandCfg acfg0 flashAllOk 3 hostState 5).2.table 3 =
      BlockStatus.bad ∧
    tableGet hostState.table 3 = BlockStatus.good := by
  decide

/-- Claim C7: mark_bad is idempotent — starting from a good in-range
block, once the first call succeeds, the second call is a no-op returning
OK with the state unchanged, exactly one record was persisted, and the
generation counter advanced by exactly 1 (mod 2^16) over the pair. -/
theorem markBlockBad_idempotent (cfg : NandInfo) (acfg : AmlConfig) (flash : Flash)
    (block : Nat) (s : AmlState) (fuel : Nat)
    (hfound : s.found = true)
    (hlen : s.table.length = cfg.num_blocks)
    (hblock : block < cfg.num_blocks)
    (hgood : tableGet s.table block = BlockStatus.good)
    (hok : (markBlockBad cfg acfg flash block s fuel).1 = ZxStatus.ok) :
    (∀ fuel2, markBlockBad cfg acfg flash block
        ((markBlockBad cfg acfg flash block s fuel).2) fuel2 =
      (ZxStatus.ok, (markBlockBad cfg acfg flash block s fuel).2)) ∧
    (markBlockBad cfg acfg flash block s fuel).2.generation =
      (s.generation + 1) % 65536 ∧
    (markBlockBad cfg acfg flash block s fuel).2.log.length = s.log.length + 1 := by
  have hm := markBlockBad_unfold_good cfg acfg flash block s fuel hfound (by omega) hgood
  rw [hm] at hok ⊢
  have hbadm : tableGet (markTableBad block s.table) block = BlockStatus.bad :=
    tableGet_markTableBad_self (by omega)
  have hinv := writeBBT_invariants cfg flash fuel false
    { s with table := markTableBad block s.table }
  have hfound1 : (writeBBT cfg flash false
      { s with table := markTableBad block s.table } fuel).2.found = true := by
    rw [hinv.2.2.1]
    exact hfound
  have hbad1 : tableGet (writeBBT cfg flash false
      { s with table := markTableBad block s.table } fuel).2.table block = BlockStatus.bad :=
    hinv.2.2.2 block hbadm
  refine ⟨?_, ?_, ?_⟩
  · intro fuel2
    exact markBlockBad_noop cfg acfg flash block _ fuel2 hfound1 (by omega)
      (by rw [hbad1]; decide)
  · exact (hinv.1 hok).1
  · obtain ⟨r, hlog, -⟩ := (hinv.1 hok).2
    rw [hlog]
    simp

/-- Witness for the idempotence claim: marking good block 1 of hostState
succeeds; the repeat call is a no-op and the pair advanced the generation
by exactly 1 with exactly one record persisted. -/
theorem markBlockBad_idempotent_witness :
    markBlockBad nandCfg acfg0 flashAllOk 1
        ((markBlockBad nandCfg acfg0 flashAllOk 1 hostState 5).2) 5 =
      (ZxStatus.ok, (markBlockBad nandCfg acfg0 flashAllOk 1 hostState 5).2) ∧
    (markBlockBad nandCfg acfg0 flashAllOk 1 hostState 5).2.generation =
      (hostState.generation + 1) % 65536 ∧
    (markBlockBad nandCfg acfg0 flashAllOk 1 hostState 5).2.log.length =
      hostState.log.length + 1 :=
  ⟨(markBlockBad_idempotent nandCfg acfg0 flashAllOk 1 hostState 5 (by decide) (by decide)
      (by decide) (by decide) (by decide)).1 5,
   (markBlockBad_idempotent nandCfg acfg0 flashAllOk 1 hostState 5 (by decide) (by decide)
      (by decide) (by decide) (by decide)).2.1,
   (markBlockBad_idempotent nandCfg acfg0 flashAllOk 1 hostState 5 (by decide) (by decide)
      (by decide) (by decide) (by decide)).2.2⟩

/-- Claim C5: after discovery, list_bad(first, last) returns exactly the
blocks b in the half-open range [first, last) whose table entry differs
from good, and returns INVALID_ARGS precisely when first is at least
num_blocks or last exceeds num_blocks. -/
theorem getBadBlockList_spec (cfg : NandInfo) (acfg : AmlConfig) (flash : Flash)
    (first last : Nat) (s : AmlState) (fuel : Nat)
    (hfound : s.found = true) :
    ((first ≥ cfg.num_blocks ∨ last > cfg.num_blocks) →
      (getBadBlockList cfg acfg flash first last s fuel).1 = ZxStatus.errInvalidArgs) ∧
    (first < cfg.num_blocks → last ≤ cfg.num_blocks →
      (getBadBlockList cfg acfg flash first last s fuel).1 = ZxStatus.ok ∧
      ∀ b, b ∈ (getBadBlockList cfg acfg flash first last s fuel).2.2 ↔
        (first ≤ b ∧ b < last ∧ tableGet s.table b ≠ BlockStatus.good)) := by
  have hunfold : getBadBlockList cfg acfg flash first last s fuel =
      (if first ≥ cfg.num_blocks ∨ last > cfg.num_blocks then
        (ZxStatus.errInvalidArgs, s, [])
       else (ZxStatus.ok, s, badBlocksIn s.table first last)) := by
    simp only [getBadBlockList, ensureFound_found hfound]
    rw [if_neg (by simp)]
  constructor
  · intro hbad
    rw [hunfold, if_pos hbad]
  · intro h1 h2
    rw [hunfold, if_neg (by omega)]
    refine ⟨rfl, fun b => ?_⟩
    unfold badBlocksIn
    rw [List.mem_filter, mem_range'_iff]
    constructor
    · rintro ⟨⟨hb1, hb2⟩, hp⟩
      exact ⟨hb1, by omega, by simpa using hp⟩
    · rintro ⟨hb1, hb2, hp⟩
      exact ⟨⟨hb1, by omega⟩, by simpa using hp⟩

/-- Witness for the list_bad claim: over mixedState (block 1 bad),
list_bad(0, 4) succeeds with the membership characterization, and
list_bad(5, 4) is rejected. -/
theorem getBadBlockList_spec_witness :
    (getBadBlockList nandCfg acfg0 flashAllOk 0 4 mixedState 3).1 = ZxStatus.ok ∧
    (1 ∈ (getBadBlockList nandCfg acfg0 flashAllOk 0 4 mixedState 3).2.2 ↔
      (0 ≤ 1 ∧ 1 < 4 ∧ tableGet mixedState.table 1 ≠ BlockStatus.good)) ∧
    (getBadBlockList nandCfg acfg0 flashAllOk 5 4 mixedState 3).1 =
      ZxStatus.errInvalidArgs :=
  ⟨((getBadBlockList_spec nandCfg acfg0 flashAllOk 0 4 mixedState 3 (by decide)).2 (by decide)
      (by decide)).1,
   ((getBadBlockList_spec nandCfg acfg0 flashAllOk 0 4 mixedState 3 (by decide)).2 (by decide)
      (by decide)).2 1,
   (getBadBlockList_spec nandCfg acfg0 flashAllOk 5 4 mixedState 3 (by decide)).1
     (by decide)⟩

/-- Definition following the spec's words, for the refinement comparison
with the code's check: the number of blocks in the inclusive range
[s, e]. -/
def specInclusiveCount (s e : Nat) : Nat := if s ≤ e then e - s + 1 else 0

/-- Claim C8 (amended): the validation computes blocks = table_end_block -
table_start_block in uint32 arithmetic and rejects with NOT_SUPPORTED
exactly when that difference is 0 or exceeds kBlockListMax — so a
one-block range (end = start) is rejected although it is not empty, and a
nine-block range (end = start + 8) is accepted although it exceeds
MAX_RESERVED. -/
theorem reserved_range_check_amended (cfg : NandInfo) (acfg : AmlConfig) (flash : Flash)
    (s : AmlState) (fuel : Nat)
    (hoob : kOobSize ≤ cfg.oob_size)
    (hrej : reservedBlocks acfg = 0 ∨ reservedBlocks acfg > kBlockListMax) :
    (findBBT cfg acfg flash s fuel).1 = ZxStatus.errNotSupported ∧
    reservedRangeRejected acfg = true := by
  have hrr : reservedRangeRejected acfg = true := by
    unfold reservedRangeRejected
    exact decide_eq_true hrej
  refine ⟨?_, hrr⟩
  simp only [findBBT]
  rw [if_neg (by omega), if_pos hrr]

/-- Witness for the amended range-check claim at the one-block range
5..5: end - start = 0 and discovery reports NOT_SUPPORTED. -/
theorem reserved_range_check_amended_witness :
    (findBBT nandCfg acfgOne flashAllOk virginState 3).1 = ZxStatus.errNotSupported :=
  (reserved_range_check_amended nandCfg acfgOne flashAllOk virginState 3 (by decide)
    (Or.inl (by decide))).1

/-- Counterexample to claim C8 as stated: the inclusive range [5, 5]
holds one block — it is neither empty nor larger than MAX_RESERVED — yet
discovery fails with NOT_SUPPORTED. -/
theorem reserved_range_one_block_cex :
    (findBBT nandCfg acfgOne flashAllOk virginState 3).1 = ZxStatus.errNotSupported ∧
    specInclusiveCount 5 5 = 1 ∧
    ¬ (specInclusiveCount 5 5 = 0 ∨ specInclusiveCount 5 5 > kBlockListMax) := by
  decide

/-- Claim C4 (code bug): the multiplexer's cached list holds the absolute
device block numbers returned by the core, but IsBlockBad compares them
against the partition-relative argument without offsetting (and
MarkBlockBad appends the relative number), so is_bad misses blocks the
core records as bad: with first_block = 1, the core records device block
1 + 1 = 2 as bad, yet the multiplexer's is_bad(1) returns false. -/
theorem mux_is_bad_offset_bug :
    (muxIsBlockBad cfg4 acfg0 flashAllOk 1 2 core4 none 1 3).1 = ZxStatus.ok ∧
    (muxIsBlockBad cfg4 acfg0 flashAllOk 1 2 core4 none 1 3).2.1 = false ∧
    tableGet core4.table (1 + 1) = BlockStatus.bad := by
  decide

/-- Claim C9 (code bug): the guards of IsBlockBad and MarkBlockBad admit
block = num_blocks (the check is block > table_len_), but the table has
exactly num_blocks entries, so the accepted access at block = num_blocks
is out of bounds: with the 4-entry table of hostState, block 4 passes both
guards while 4 < length fails. -/
theorem bounds_guard_off_by_one :
    (isBlockBad nandCfg acfg0 flashAllOk 4 hostState 3).1 = ZxStatus.ok ∧
    (markBlockBad nandCfg acfg0 flashAllOk 4 hostState 3).1 ≠ ZxStatus.errOutOfRange ∧
    hostState.table.length = 4 ∧
    ¬ (4 < hostState.table.length) := by
  decide

/-- Claim C10 (code bug): validation accepts table_end_block minus
table_start_block equal to kBlockListMax, an inclusive range of nine
blocks; when every block in the range has a readable page the candidate
scan records nine entries, so its last write to block_list_ uses index 8,
which is not below the capacity kBlockListMax = 8 (the C++ writes past the
end of the array; the model's List.set drops that write). -/
theorem block_list_overflow :
    reservedRangeRejected acfgNine = false ∧
    (candScan flashVirgin (bbtPageCount nandCfg) nandCfg.pages_per_block 0 8 0
      blankBlockList).nvalid = 9 ∧
    kBlockListMax <
      (candScan flashVirgin (bbtPageCount nandCfg) nandCfg.pages_per_block 0 8 0
        blankBlockList).nvalid := by
  decide

end Zircon
